import Mathlib

/-!
Shallow embedding of the AI-chatbot backend (src/ai-chatbot-project/backend/app.py).

The backend is a Flask application holding two in-process dictionaries,
`conversation_store : Dict[str, list]` and `audio_file_store : Dict[str, Dict]`
(app.py lines 46-47), plus a scratch directory of wav files.  Python
dictionaries preserve insertion order, insert new keys at the end, and keep
the position of a key on overwrite; we model them as association lists with
operations `alookup`, `ainsert` (overwrite in place, append when absent) and
`aerase`, which have exactly those properties.

The three external inference engines (dialog, speech recognition, speech
synthesis) are parameters of every operation that the source invokes them
from: a `DialogEngine` receives the replayed turn history plus the new user
message and returns the `generated_responses` list of the resulting
`Conversation` object (app.py lines 167-178), an `AsrEngine` receives the
content of the audio file written to the transient path and either returns a
transcript or raises (modelled as `Except`), and a `TtsEngine` returns a
sampling rate together with the waveform list whose first element the source
writes out (`result["audio"][0]`, line 247).

The filesystem under the scratch directory is modelled as an association
list from path to `FileData`; `wav.write path rate data` becomes inserting
`FileData.wavData rate data`, `os.unlink` becomes `aerase`, and
`os.path.exists` becomes a lookup test.  Wall-clock time is a `Nat` of
seconds; `uuid.uuid4()` results are passed in as `fresh...` parameters,
with freshness hypotheses where a theorem needs them.
-/

namespace AIChatbot

/-- One message of a conversation, as stored by the backend:
a dict with a role key ("user" or "assistant") and a content key. -/
structure Turn where
  role : String
  content : String
deriving Repr, DecidableEq

/-- Association-list lookup, modelling Python `d[k]` / `k in d`. -/
def alookup {α : Type} : List (String × α) → String → Option α
  | [], _ => none
  | (k, v) :: rest, key => if k = key then some v else alookup rest key

/-- Association-list store, modelling Python `d[k] = v`: overwrites in place
when the key is present, appends at the end when it is absent (Python
dictionaries preserve insertion order and add new keys at the end). -/
def ainsert {α : Type} : List (String × α) → String → α → List (String × α)
  | [], key, v => [(key, v)]
  | (k, w) :: rest, key, v =>
    if k = key then (key, v) :: rest else (k, w) :: ainsert rest key v

/-- Association-list removal, modelling Python `del d[k]` (keys of a dict are
unique, so removing every binding of the key is the same operation). -/
def aerase {α : Type} : List (String × α) → String → List (String × α)
  | [], _ => []
  | (k, w) :: rest, key =>
    if k = key then aerase rest key else (k, w) :: aerase rest key

/-- The in-memory conversation store (app.py line 46). -/
abbrev ConvStore := List (String × List Turn)

/-- Content of a file in the scratch directory: either raw uploaded audio
bytes saved verbatim, or a wav file written by `wav.write` carrying a
sampling rate and the waveform samples. -/
inductive FileData where
  | raw (bytes : List Nat)
  | wavData (rate : Nat) (samples : List Int)
deriving Repr, DecidableEq

/-- The scratch directory, path to file content (Config.TEMP_DIR). -/
abbrev Fs := List (String × FileData)

/-- Metadata stored per generated audio file (app.py lines 250-254):
path, creation timestamp and MIME type (the source dict key of the MIME
type is named type). -/
structure AudioInfo where
  path : String
  timestamp : Nat
  mime : String
deriving Repr, DecidableEq

/-- The in-memory audio artifact store (app.py line 47). -/
abbrev AudioStore := List (String × AudioInfo)

/-- Dialog engine collaborator: turn history replayed in order plus the
new user message, giving the generated_responses list. -/
abbrev DialogEngine := List Turn → String → List String

/-- Speech-recognition engine collaborator: content of the audio file at the
path it is handed; it may raise (Except.error). -/
abbrev AsrEngine := FileData → Except String String

/-- Output of the speech-synthesis engine: a sampling rate and the list of
waveform arrays of which the source uses element 0. -/
structure TTSOutput where
  sampling_rate : Nat
  audio : List (List Int)
deriving Repr, DecidableEq

/-- Speech-synthesis engine collaborator (the narrator pipeline). -/
abbrev TtsEngine := String → TTSOutput

def userTurn (c : String) : Turn := ⟨"user", c⟩

def assistantTurn (c : String) : Turn := ⟨"assistant", c⟩

/-- The canned fallback answer of app.py lines 180 and 311 (the apostrophe
is written with an escape). -/
def fallbackResponse : String := "I\x27m not sure how to respond to that."

/-- Config.AUDIO_RETENTION_SECONDS (app.py line 31). -/
def audioRetentionSeconds : Nat := 3600

/-- Config.TEMP_DIR rendered as a path prefix. -/
def tempDirPath : String := "/tmp/chatbot_audio/"

/-- Result of the gated endpoints: `ensure_models_loaded` (app.py lines
110-116) returns a 503 before the wrapped handler runs. -/
inductive Gated (α : Type) where
  | notReady : Gated α
  | result : α → Gated α
deriving Repr, DecidableEq

/-- HTTP-level outcome of POST /api/chat. -/
inductive ChatResult where
  | badRequest (error : String)
  | ok (response : String) (conversation_id : String)
deriving Repr, DecidableEq

/-- The chat handler body (app.py lines 140-190).  `freshId` is the
`uuid.uuid4()` value minted when the request carries no conversation id.
Returns the HTTP result together with the updated conversation store. -/
def chatCore (chatbot : DialogEngine) (freshId : String) (store : ConvStore)
    (message : String) (conversation_id : String) : ChatResult × ConvStore :=
  if message = "" then (ChatResult.badRequest "No message provided", store)
  else
    let cid := if conversation_id = "" then freshId else conversation_id
    let store1 :=
      if conversation_id = "" then ainsert store freshId []
      else if (alookup store conversation_id).isNone then
        ainsert store conversation_id []
      else store
    let history := (alookup store1 cid).getD []
    let responses := chatbot history message
    let response := responses.getLast?.getD fallbackResponse
    let history2 := history ++ [userTurn message, assistantTurn response]
    (ChatResult.ok response cid, ainsert store1 cid history2)

/-- POST /api/chat with its `ensure_models_loaded` decorator (app.py
lines 137-139). -/
def chat (loaded : Bool) (chatbot : DialogEngine) (freshId : String)
    (store : ConvStore) (message : String) (conversation_id : String) :
    Gated ChatResult × ConvStore :=
  if loaded then
    let r := chatCore chatbot freshId store message conversation_id
    (Gated.result r.1, r.2)
  else (Gated.notReady, store)

/-- HTTP-level outcome of POST /api/speech-to-text. -/
inductive SttResult where
  | badRequest (error : String)
  | serverError (error : String)
  | ok (text : String)
deriving Repr, DecidableEq

/-- The speech_to_text handler body (app.py lines 195-219): save the upload
to a transient wav path, run the recognition engine on it, unlink the
transient file, return the transcript.  When the engine raises, the
`api_response` wrapper (lines 119-127) turns the exception into a 500
response; note that the unlink on line 215 is only reached on success, so
on an engine failure the transient file stays in the filesystem. -/
def speech_to_textCore (asr : AsrEngine) (tempPath : String)
    (audio : Option (List Nat)) (fs : Fs) : SttResult × Fs :=
  match audio with
  | none => (SttResult.badRequest "No audio file provided", fs)
  | some bytes =>
    let fs1 := ainsert fs tempPath (FileData.raw bytes)
    match asr (FileData.raw bytes) with
    | Except.error e => (SttResult.serverError e, fs1)
    | Except.ok text => (SttResult.ok text, aerase fs1 tempPath)

/-- POST /api/speech-to-text with its `ensure_models_loaded` decorator. -/
def speech_to_text (loaded : Bool) (asr : AsrEngine) (tempPath : String)
    (audio : Option (List Nat)) (fs : Fs) : Gated SttResult × Fs :=
  if loaded then
    let r := speech_to_textCore asr tempPath audio fs
    (Gated.result r.1, r.2)
  else (Gated.notReady, fs)

/-- HTTP-level outcome of POST /api/text-to-speech. -/
inductive TtsResult where
  | badRequest (error : String)
  | serverError (error : String)
  | ok (audio_url : String)
deriving Repr, DecidableEq

/-- The text_to_speech handler body (app.py lines 224-258): synthesize,
write `result["audio"][0]` as a wav file under a fresh name, record path,
timestamp and MIME type in the audio store, return the audio URL.  When the
waveform list is empty the indexing raises and `api_response` yields a 500
with nothing written. -/
def text_to_speechCore (narrator : TtsEngine) (freshName : String) (now : Nat)
    (astore : AudioStore) (fs : Fs) (text : String) :
    TtsResult × AudioStore × Fs :=
  if text = "" then (TtsResult.badRequest "No text provided", astore, fs)
  else
    let result := narrator text
    let filename := freshName ++ ".wav"
    let file_path := tempDirPath ++ filename
    match result.audio with
    | [] => (TtsResult.serverError "list index out of range", astore, fs)
    | a0 :: _ =>
      let fs1 := ainsert fs file_path (FileData.wavData result.sampling_rate a0)
      let astore1 := ainsert astore filename (AudioInfo.mk file_path now "audio/wav")
      (TtsResult.ok ("/api/audio/" ++ filename), astore1, fs1)

/-- POST /api/text-to-speech with its `ensure_models_loaded` decorator. -/
def text_to_speech (loaded : Bool) (narrator : TtsEngine) (freshName : String)
    (now : Nat) (astore : AudioStore) (fs : Fs) (text : String) :
    Gated TtsResult × AudioStore × Fs :=
  if loaded then
    let r := text_to_speechCore narrator freshName now astore fs text
    (Gated.result r.1, r.2)
  else (Gated.notReady, astore, fs)

/-- HTTP-level outcome of POST /api/conversation-with-audio. -/
inductive CwaResult where
  | badRequest (error : String)
  | serverError (error : String)
  | ok (user_message : String) (text_response : String)
      (conversation_id : String) (audio_url : String)
deriving Repr, DecidableEq

/-- The conversation_with_audio handler body (app.py lines 263-340):
transcribe the upload, resolve or create the session exactly as chat does,
run the dialog engine over the replayed history, append the user and
assistant turns, synthesize the response and register the artifact.  An
engine exception at any stage is turned into a 500 by `api_response`,
aborting the remaining stages. -/
def conversation_with_audioCore (asr : AsrEngine) (chatbot : DialogEngine)
    (narrator : TtsEngine) (freshCid freshName tempPath : String) (now : Nat)
    (cstore : ConvStore) (astore : AudioStore) (fs : Fs)
    (audio : Option (List Nat)) (conversation_id : String) :
    CwaResult × ConvStore × AudioStore × Fs :=
  match audio with
  | none => (CwaResult.badRequest "No audio file provided", cstore, astore, fs)
  | some bytes =>
    let fs1 := ainsert fs tempPath (FileData.raw bytes)
    match asr (FileData.raw bytes) with
    | Except.error e => (CwaResult.serverError e, cstore, astore, fs1)
    | Except.ok user_message =>
      let fs2 := aerase fs1 tempPath
      let cid := if conversation_id = "" then freshCid else conversation_id
      let cstore1 :=
        if conversation_id = "" then ainsert cstore freshCid []
        else if (alookup cstore conversation_id).isNone then
          ainsert cstore conversation_id []
        else cstore
      let history := (alookup cstore1 cid).getD []
      let responses := chatbot history user_message
      let text_response := responses.getLast?.getD fallbackResponse
      let history2 := history ++ [userTurn user_message, assistantTurn text_response]
      let cstore2 := ainsert cstore1 cid history2
      let result := narrator text_response
      let filename := freshName ++ ".wav"
      let file_path := tempDirPath ++ filename
      match result.audio with
      | [] => (CwaResult.serverError "list index out of range", cstore2, astore, fs2)
      | a0 :: _ =>
        let fs3 := ainsert fs2 file_path (FileData.wavData result.sampling_rate a0)
        let astore1 := ainsert astore filename (AudioInfo.mk file_path now "audio/wav")
        (CwaResult.ok user_message text_response cid ("/api/audio/" ++ filename),
          cstore2, astore1, fs3)

/-- POST /api/conversation-with-audio with its `ensure_models_loaded`
decorator. -/
def conversation_with_audio (loaded : Bool) (asr : AsrEngine)
    (chatbot : DialogEngine) (narrator : TtsEngine)
    (freshCid freshName tempPath : String) (now : Nat)
    (cstore : ConvStore) (astore : AudioStore) (fs : Fs)
    (audio : Option (List Nat)) (conversation_id : String) :
    Gated CwaResult × ConvStore × AudioStore × Fs :=
  if loaded then
    let r := conversation_with_audioCore asr chatbot narrator freshCid freshName
      tempPath now cstore astore fs audio conversation_id
    (Gated.result r.1, r.2)
  else (Gated.notReady, cstore, astore, fs)

/-- HTTP-level outcome of GET /api/audio/(filename). -/
inductive AudioResult where
  | notFound (error : String)
  | file (content : FileData) (mime : String) (name : String)
deriving Repr, DecidableEq

/-- The get_audio handler body (app.py lines 344-362): 404 when the
identifier is not in the audio store, 404 with a different message when the
entry is present but its backing file is missing, otherwise send the file.
The handler never mutates the audio store (it has no del statement), so the
store is returned unchanged in every branch. -/
def get_audioCore (astore : AudioStore) (fs : Fs) (filename : String) :
    AudioResult × AudioStore :=
  match alookup astore filename with
  | none => (AudioResult.notFound "Audio file not found", astore)
  | some info =>
    match alookup fs info.path with
    | none => (AudioResult.notFound "Audio file not found on server", astore)
    | some content => (AudioResult.file content info.mime filename, astore)

/-- GET /api/audio/(filename).  The source applies `api_response` but NOT
`ensure_models_loaded` (app.py lines 342-343), so the readiness flag is
ignored. -/
def get_audio (_loaded : Bool) (astore : AudioStore) (fs : Fs)
    (filename : String) : AudioResult × AudioStore :=
  get_audioCore astore fs filename

/-- HTTP-level outcome of GET /api/conversations/(id). -/
inductive HistoryResult where
  | notFound (error : String)
  | ok (conversation_id : String) (messages : List Turn)
deriving Repr, DecidableEq

/-- The get_conversation_history handler body (app.py lines 402-412). -/
def get_conversation_historyCore (cstore : ConvStore) (conversation_id : String) :
    HistoryResult :=
  match alookup cstore conversation_id with
  | none => HistoryResult.notFound "Conversation not found"
  | some msgs => HistoryResult.ok conversation_id msgs

/-- GET /api/conversations/(id).  The source applies `api_response` but NOT
`ensure_models_loaded` (app.py lines 400-401), so the readiness flag is
ignored. -/
def get_conversation_history (_loaded : Bool) (cstore : ConvStore)
    (conversation_id : String) : HistoryResult :=
  get_conversation_historyCore cstore conversation_id

/-- HTTP-level outcome of DELETE /api/conversations/(id). -/
inductive DeleteResult where
  | ok (success : Bool) (message : String)
deriving Repr, DecidableEq

/-- The delete_conversation handler body (app.py lines 416-426): remove the
id when present, succeed either way. -/
def delete_conversationCore (cstore : ConvStore) (conversation_id : String) :
    DeleteResult × ConvStore :=
  (DeleteResult.ok true "Conversation deleted", aerase cstore conversation_id)

/-- DELETE /api/conversations/(id).  The source applies `api_response` but
NOT `ensure_models_loaded` (app.py lines 414-415). -/
def delete_conversation (_loaded : Bool) (cstore : ConvStore)
    (conversation_id : String) : DeleteResult × ConvStore :=
  delete_conversationCore cstore conversation_id

/-- HTTP-level outcome of POST /api/language-feedback.  The handler is the
placeholder scorer; its constant numeric scores are floating point and out
of the engineered core, so only the shape that matters to the readiness
gate is kept: validation and the echoed corrected text. -/
inductive FeedbackResult where
  | badRequest (error : String)
  | ok (corrected_text : String)
deriving Repr, DecidableEq

/-- The language_feedback handler body (app.py lines 367-398). -/
def language_feedbackCore (text : String) : FeedbackResult :=
  if text = "" then FeedbackResult.badRequest "No text provided"
  else FeedbackResult.ok text

/-- POST /api/language-feedback with its `ensure_models_loaded` decorator
(app.py lines 364-366). -/
def language_feedback (loaded : Bool) (text : String) : Gated FeedbackResult :=
  if loaded then Gated.result (language_feedbackCore text)
  else Gated.notReady

/-- Response of GET /api/status (app.py lines 129-135): always 200, always
reports the readiness flag. -/
structure StatusResult where
  status : String
  models_loaded : Bool
deriving Repr, DecidableEq

/-- GET /api/status: the only endpoint without any decorator and without a
readiness rejection. -/
def statusEndpoint (loaded : Bool) : StatusResult :=
  StatusResult.mk "operational" loaded

/-- One entry of the cleanup loop body (app.py lines 89-98), processing one
snapshot entry against the current stores.  `faults` is the set of paths
whose `os.unlink` raises an OSError: on such an entry the except branch
logs and continues, so neither the file nor the metadata entry is removed
(the del on line 95 sits after the unlink inside the try).  When the file
does not exist the unlink is skipped and the metadata entry is still
deleted. -/
def cleanupStep (now : Nat) (faults : List String) (acc : AudioStore × Fs)
    (e : String × AudioInfo) : AudioStore × Fs :=
  if now - e.2.timestamp > audioRetentionSeconds then
    if (alookup acc.2 e.2.path).isSome then
      if e.2.path ∈ faults then acc
      else (aerase acc.1 e.1, aerase acc.2 e.2.path)
    else (aerase acc.1 e.1, acc.2)
  else acc

/-- One pass of the cleanup loop (app.py lines 87-98): iterate over a
snapshot of the audio store (`list(audio_file_store.items())`), deleting
expired entries from the live stores.  The pass returns only the updated
stores; the source function returns nothing. -/
def cleanupPass (now : Nat) (faults : List String) (astore : AudioStore)
    (fs : Fs) : AudioStore × Fs :=
  astore.foldl (cleanupStep now faults) (astore, fs)

/-- The assistant reply the chat handler extracts from the dialog engine
(app.py line 180): the last generated response, or the canned fallback when
the engine yields none. -/
def engineReply (cb : DialogEngine) (h : List Turn) (m : String) : String :=
  (cb h m).getLast?.getD fallbackResponse

/-- A turn list is a sequence of user/assistant pairs: even length and
roles strictly alternating starting with user. -/
def rolesOk : List Turn → Bool
  | [] => true
  | [_] => false
  | u :: a :: rest => (u.role == "user" && a.role == "assistant") && rolesOk rest

/-- Every turn list in the conversation store is a sequence of
user/assistant pairs. -/
def sessionInvariant (c : ConvStore) : Prop :=
  ∀ e ∈ c, rolesOk e.2 = true

instance (c : ConvStore) : Decidable (sessionInvariant c) :=
  List.decidableBAll _ c

/-- The turn history accumulated by replaying a sequence of chat messages
from a starting history: each message appends its user turn and the
corresponding engine reply. -/
def dialogHistory (cb : DialogEngine) (h : List Turn) : List String → List Turn
  | [] => h
  | m :: rest =>
    dialogHistory cb (h ++ [userTurn m, assistantTurn (engineReply cb h m)]) rest

/-- Issue a sequence of chat requests, all against the same conversation id
(the freshId argument of chatCore is irrelevant when the id is nonempty). -/
def chatSeq (cb : DialogEngine) (cid : String) (store : ConvStore) :
    List String → ConvStore
  | [] => store
  | m :: rest => chatSeq cb cid (chatCore cb "" store m cid).2 rest

/-- The user messages of a paired turn list, in order. -/
def userMessages : List Turn → List String
  | [] => []
  | [_] => []
  | u :: _ :: rest => u.content :: userMessages rest

/-- One application-level request, with every input it consumes; used to
state the store invariant over all endpoints. -/
inductive Op where
  | chatOp (loaded : Bool) (chatbot : DialogEngine)
      (freshId message conversation_id : String)
  | sttOp (loaded : Bool) (asr : AsrEngine) (tempPath : String)
      (audio : Option (List Nat))
  | ttsOp (loaded : Bool) (narrator : TtsEngine) (freshName : String)
      (now : Nat) (text : String)
  | cwaOp (loaded : Bool) (asr : AsrEngine) (chatbot : DialogEngine)
      (narrator : TtsEngine) (freshCid freshName tempPath : String) (now : Nat)
      (audio : Option (List Nat)) (conversation_id : String)
  | getAudioOp (loaded : Bool) (filename : String)
  | feedbackOp (loaded : Bool) (text : String)
  | historyOp (loaded : Bool) (conversation_id : String)
  | deleteOp (loaded : Bool) (conversation_id : String)
  | statusOp (loaded : Bool)
  | cleanupOp (now : Nat) (faults : List String)

/-- The shared mutable state of the process: the two stores and the
scratch directory. -/
structure AppState where
  cstore : ConvStore
  astore : AudioStore
  fs : Fs

/-- Sequential execution of one request against the process state. -/
def applyOp (st : AppState) : Op → AppState
  | Op.chatOp loaded cb fid msg cid =>
    AppState.mk (chat loaded cb fid st.cstore msg cid).2 st.astore st.fs
  | Op.sttOp loaded asr tp audio =>
    AppState.mk st.cstore st.astore (speech_to_text loaded asr tp audio st.fs).2
  | Op.ttsOp loaded narr fn now text =>
    let r := text_to_speech loaded narr fn now st.astore st.fs text
    AppState.mk st.cstore r.2.1 r.2.2
  | Op.cwaOp loaded asr cb narr fcid fn tp now audio cid =>
    let r := conversation_with_audio loaded asr cb narr fcid fn tp now
      st.cstore st.astore st.fs audio cid
    AppState.mk r.2.1 r.2.2.1 r.2.2.2
  | Op.getAudioOp loaded fn =>
    AppState.mk st.cstore (get_audio loaded st.astore st.fs fn).2 st.fs
  | Op.feedbackOp _ _ => st
  | Op.historyOp _ _ => st
  | Op.deleteOp loaded cid =>
    AppState.mk (delete_conversation loaded st.cstore cid).2 st.astore st.fs
  | Op.statusOp _ => st
  | Op.cleanupOp now faults =>
    let r := cleanupPass now faults st.astore st.fs
    AppState.mk st.cstore r.1 r.2

/-- One atomic list operation of a concurrent chat request on a shared
session: app.py lines 183-184 are two separate `history.append` statements,
each atomic under the interpreter lock, with no lock held across them (and
the blocking engine call of line 177 sits between the history read and the
appends).  Request number i appends its user turn and then its assistant
turn as two separate atomic actions. -/
inductive ChatAction where
  | appendUser (i : Nat)
  | appendAssistant (i : Nat)
deriving Repr, DecidableEq

/-- The per-request action sequence of one chat request (its program
order): append the user turn, then append the assistant turn. -/
def chatProgram (i : Nat) : List ChatAction :=
  [ChatAction.appendUser i, ChatAction.appendAssistant i]

/-- Effect of one atomic append on the shared turn list of the session. -/
def applyAction (umsg resp : Nat → String) (h : List Turn) :
    ChatAction → List Turn
  | ChatAction.appendUser i => h ++ [userTurn (umsg i)]
  | ChatAction.appendAssistant i => h ++ [assistantTurn (resp i)]

/-- Run one interleaved schedule of atomic appends over the shared turn
list of a single session. -/
def runSchedule (umsg resp : Nat → String) (sched : List ChatAction)
    (h : List Turn) : List Turn :=
  sched.foldl (applyAction umsg resp) h

/-- `Interleaving xs ys zs`: zs is an interleaving of xs and ys that
preserves the internal order of each — exactly the schedules a thread
scheduler can produce for two concurrent requests. -/
inductive Interleaving {α : Type} : List α → List α → List α → Prop where
  | nil : Interleaving [] [] []
  | consLeft {x : α} {xs ys zs : List α} :
      Interleaving xs ys zs → Interleaving (x :: xs) ys (x :: zs)
  | consRight {y : α} {xs ys zs : List α} :
      Interleaving xs ys zs → Interleaving xs (y :: ys) (y :: zs)

/-- Whether turn u is immediately followed by turn a somewhere in h. -/
def pairAdjacent (h : List Turn) (u a : Turn) : Bool :=
  (List.range h.length).any
    (fun k => h.get? k == some u && h.get? (k + 1) == some a)

/-! Association-list lemmas: the dictionary operations of the model. -/

theorem alookup_ainsert_self {α : Type} (l : List (String × α)) (k : String)
    (v : α) : alookup (ainsert l k v) k = some v := by
  induction l with
  | nil => simp [ainsert, alookup]
  | cons e rest ih =>
    obtain ⟨k1, w⟩ := e
    by_cases h : k1 = k
    · simp [ainsert, h, alookup]
    · simp [ainsert, h, alookup, ih]

theorem alookup_ainsert_ne {α : Type} (l : List (String × α)) (k k2 : String)
    (v : α) (hne : k2 ≠ k) : alookup (ainsert l k v) k2 = alookup l k2 := by
  induction l with
  | nil => simp [ainsert, alookup, Ne.symm hne]
  | cons e rest ih =>
    obtain ⟨k1, w⟩ := e
    by_cases h : k1 = k
    · subst h
      simp [ainsert, alookup, Ne.symm hne]
    · simp only [ainsert, if_neg h, alookup, ih]

theorem alookup_aerase_self {α : Type} (l : List (String × α)) (k : String) :
    alookup (aerase l k) k = none := by
  induction l with
  | nil => simp [aerase, alookup]
  | cons e rest ih =>
    obtain ⟨k1, w⟩ := e
    by_cases h : k1 = k
    · simp [aerase, h, ih]
    · simp [aerase, h, alookup, ih]

theorem alookup_aerase_ne {α : Type} (l : List (String × α)) (k k2 : String)
    (hne : k2 ≠ k) : alookup (aerase l k) k2 = alookup l k2 := by
  induction l with
  | nil => simp [aerase]
  | cons e rest ih =>
    obtain ⟨k1, w⟩ := e
    by_cases h : k1 = k
    · subst h
      simp [aerase, alookup, Ne.symm hne, ih]
    · simp only [aerase, if_neg h, alookup, ih]

theorem ainsert_eq_append {α : Type} (l : List (String × α)) (k : String)
    (v : α) (h : alookup l k = none) : ainsert l k v = l ++ [(k, v)] := by
  induction l with
  | nil => simp [ainsert]
  | cons e rest ih =>
    obtain ⟨k1, w⟩ := e
    by_cases hk : k1 = k
    · simp [alookup, hk] at h
    · simp only [alookup, if_neg hk] at h
      simp [ainsert, hk, ih h]

theorem alookup_eq_none_iff {α : Type} (l : List (String × α)) (k : String) :
    alookup l k = none ↔ ∀ e ∈ l, e.1 ≠ k := by
  induction l with
  | nil => simp [alookup]
  | cons e rest ih =>
    obtain ⟨k1, w⟩ := e
    by_cases h : k1 = k
    · simp [alookup, h]
    · simp [alookup, h, ih]

theorem alookup_mem {α : Type} (l : List (String × α)) (k : String) (v : α)
    (h : alookup l k = some v) : (k, v) ∈ l := by
  induction l with
  | nil => simp [alookup] at h
  | cons e rest ih =>
    obtain ⟨k1, w⟩ := e
    by_cases hk : k1 = k
    · subst hk
      simp [alookup] at h
      simp [h]
    · simp only [alookup, if_neg hk] at h
      exact List.mem_cons_of_mem _ (ih h)

theorem alookup_split {α : Type} (l : List (String × α)) (k : String) (v : α)
    (h : alookup l k = some v) :
    ∃ l1 l2, l = l1 ++ (k, v) :: l2 ∧ ∀ e ∈ l1, e.1 ≠ k := by
  induction l with
  | nil => simp [alookup] at h
  | cons e rest ih =>
    obtain ⟨k1, w⟩ := e
    by_cases hk : k1 = k
    · subst hk
      simp [alookup] at h
      exact ⟨[], rest, by simp [h], by simp⟩
    · simp only [alookup, if_neg hk] at h
      obtain ⟨l1, l2, hl, hne⟩ := ih h
      exact ⟨(k1, w) :: l1, l2, by simp [hl], by simpa [hk] using hne⟩

theorem mem_ainsert {α : Type} (l : List (String × α)) (k : String) (v : α) :
    ∀ e ∈ ainsert l k v, e = (k, v) ∨ e ∈ l := by
  induction l with
  | nil =>
    intro e he
    simp [ainsert] at he
    exact Or.inl he
  | cons p rest ih =>
    obtain ⟨k1, w⟩ := p
    intro e he
    by_cases hk : k1 = k
    · simp only [ainsert, if_pos hk] at he
      rcases List.mem_cons.mp he with h1 | h2
      · exact Or.inl h1
      · exact Or.inr (List.mem_cons_of_mem _ h2)
    · simp only [ainsert, if_neg hk] at he
      rcases List.mem_cons.mp he with h1 | h2
      · exact Or.inr (h1 ▸ List.mem_cons_self _ _)
      · rcases ih e h2 with h3 | h4
        · exact Or.inl h3
        · exact Or.inr (List.mem_cons_of_mem _ h4)

theorem mem_aerase {α : Type} (l : List (String × α)) (k : String) :
    ∀ e ∈ aerase l k, e ∈ l := by
  induction l with
  | nil => intro e he; simp [aerase] at he
  | cons p rest ih =>
    obtain ⟨k1, w⟩ := p
    intro e he
    by_cases hk : k1 = k
    · simp only [aerase, if_pos hk] at he
      exact List.mem_cons_of_mem _ (ih e he)
    · simp only [aerase, if_neg hk] at he
      rcases List.mem_cons.mp he with h1 | h2
      · exact h1 ▸ List.mem_cons_self _ _
      · exact List.mem_cons_of_mem _ (ih e h2)

theorem alookup_aerase_of_none {α : Type} (l : List (String × α))
    (k k2 : String) (h : alookup l k = none) :
    alookup (aerase l k2) k = none := by
  by_cases hk : k = k2
  · subst hk
    exact alookup_aerase_self l k
  · rw [alookup_aerase_ne l k2 k hk]
    exact h

/-! Cleanup-pass lemmas: one step of the sweep only touches the key and the
path of the entry it processes, and never re-adds a removed binding. -/

theorem cleanupStep_fst_ne (now : Nat) (faults : List String)
    (acc : AudioStore × Fs) (e : String × AudioInfo) (k : String)
    (hk : e.1 ≠ k) :
    alookup (cleanupStep now faults acc e).1 k = alookup acc.1 k := by
  unfold cleanupStep
  split
  · split
    · split
      · rfl
      · exact alookup_aerase_ne _ _ _ (Ne.symm hk)
    · exact alookup_aerase_ne _ _ _ (Ne.symm hk)
  · rfl

theorem cleanupStep_snd_ne (now : Nat) (faults : List String)
    (acc : AudioStore × Fs) (e : String × AudioInfo) (p : String)
    (hp : e.2.path ≠ p) :
    alookup (cleanupStep now faults acc e).2 p = alookup acc.2 p := by
  unfold cleanupStep
  split
  · split
    · split
      · rfl
      · exact alookup_aerase_ne _ _ _ (Ne.symm hp)
    · rfl
  · rfl

theorem cleanupStep_fst_none (now : Nat) (faults : List String)
    (acc : AudioStore × Fs) (e : String × AudioInfo) (k : String)
    (h : alookup acc.1 k = none) :
    alookup (cleanupStep now faults acc e).1 k = none := by
  unfold cleanupStep
  split
  · split
    · split
      · exact h
      · exact alookup_aerase_of_none _ _ _ h
    · exact alookup_aerase_of_none _ _ _ h
  · exact h

theorem cleanupStep_snd_none (now : Nat) (faults : List String)
    (acc : AudioStore × Fs) (e : String × AudioInfo) (p : String)
    (h : alookup acc.2 p = none) :
    alookup (cleanupStep now faults acc e).2 p = none := by
  unfold cleanupStep
  split
  · split
    · split
      · exact h
      · exact alookup_aerase_of_none _ _ _ h
    · exact h
  · exact h

theorem foldl_cleanup_fst_ne (now : Nat) (faults : List String)
    (l : List (String × AudioInfo)) :
    ∀ acc k, (∀ e ∈ l, e.1 ≠ k) →
    alookup (l.foldl (cleanupStep now faults) acc).1 k = alookup acc.1 k := by
  induction l with
  | nil => intro acc k _; rfl
  | cons e rest ih =>
    intro acc k hl
    rw [List.foldl_cons,
      ih _ k (fun x hx => hl x (List.mem_cons_of_mem _ hx)),
      cleanupStep_fst_ne now faults acc e k (hl e (List.mem_cons_self _ _))]

theorem foldl_cleanup_snd_ne (now : Nat) (faults : List String)
    (l : List (String × AudioInfo)) :
    ∀ acc p, (∀ e ∈ l, e.2.path ≠ p) →
    alookup (l.foldl (cleanupStep now faults) acc).2 p = alookup acc.2 p := by
  induction l with
  | nil => intro acc p _; rfl
  | cons e rest ih =>
    intro acc p hl
    rw [List.foldl_cons,
      ih _ p (fun x hx => hl x (List.mem_cons_of_mem _ hx)),
      cleanupStep_snd_ne now faults acc e p (hl e (List.mem_cons_self _ _))]

theorem foldl_cleanup_fst_none (now : Nat) (faults : List String)
    (l : List (String × AudioInfo)) :
    ∀ acc k, alookup acc.1 k = none →
    alookup (l.foldl (cleanupStep now faults) acc).1 k = none := by
  induction l with
  | nil => intro acc k h; exact h
  | cons e rest ih =>
    intro acc k h
    rw [List.foldl_cons]
    exact ih _ k (cleanupStep_fst_none now faults acc e k h)

theorem foldl_cleanup_snd_none (now : Nat) (faults : List String)
    (l : List (String × AudioInfo)) :
    ∀ acc p, alookup acc.2 p = none →
    alookup (l.foldl (cleanupStep now faults) acc).2 p = none := by
  induction l with
  | nil => intro acc p h; exact h
  | cons e rest ih =>
    intro acc p h
    rw [List.foldl_cons]
    exact ih _ p (cleanupStep_snd_none now faults acc e p h)

/-! Invariant lemmas for the session store. -/

theorem rolesOk_append_pair (h : List Turn) (m r : String) :
    rolesOk (h ++ [userTurn m, assistantTurn r]) = rolesOk h := by
  induction h using rolesOk.induct with
  | case1 => simp [rolesOk, userTurn, assistantTurn]
  | case2 t => simp [rolesOk, userTurn, assistantTurn]
  | case3 u a rest ih => simp [rolesOk, ih]

theorem sessionInvariant_ainsert (c : ConvStore) (k : String) (v : List Turn)
    (hc : sessionInvariant c) (hv : rolesOk v = true) :
    sessionInvariant (ainsert c k v) := by
  intro e he
  rcases mem_ainsert c k v e he with h1 | h2
  · rw [h1]
    exact hv
  · exact hc e h2

theorem sessionInvariant_aerase (c : ConvStore) (k : String)
    (hc : sessionInvariant c) : sessionInvariant (aerase c k) :=
  fun e he => hc e (mem_aerase c k e he)

theorem rolesOk_getD (c : ConvStore) (k : String) (hc : sessionInvariant c) :
    rolesOk ((alookup c k).getD []) = true := by
  cases h : alookup c k with
  | none => simp [rolesOk]
  | some v => simpa using hc (k, v) (alookup_mem c k v h)

theorem sessionInvariant_update (store1 : ConvStore) (cid2 msg resp : String)
    (h1 : sessionInvariant store1) :
    sessionInvariant (ainsert store1 cid2
      ((alookup store1 cid2).getD [] ++ [userTurn msg, assistantTurn resp])) :=
  sessionInvariant_ainsert _ _ _ h1
    (by rw [rolesOk_append_pair]; exact rolesOk_getD _ _ h1)

theorem sessionInvariant_chatCore (cb : DialogEngine) (fid : String)
    (store : ConvStore) (msg cid : String) (hc : sessionInvariant store) :
    sessionInvariant (chatCore cb fid store msg cid).2 := by
  by_cases hm : msg = ""
  · simpa [chatCore, hm] using hc
  by_cases hcid : cid = ""
  · have := sessionInvariant_update (ainsert store fid []) fid msg
      ((cb ((alookup (ainsert store fid []) fid).getD []) msg).getLast?.getD
        fallbackResponse)
      (sessionInvariant_ainsert _ _ _ hc rfl)
    simpa [chatCore, hm, hcid] using this
  cases hk : alookup store cid with
  | none =>
    have := sessionInvariant_update (ainsert store cid []) cid msg
      ((cb ((alookup (ainsert store cid []) cid).getD []) msg).getLast?.getD
        fallbackResponse)
      (sessionInvariant_ainsert _ _ _ hc rfl)
    simpa [chatCore, hm, hcid, hk] using this
  | some l =>
    have := sessionInvariant_update store cid msg
      ((cb ((alookup store cid).getD []) msg).getLast?.getD fallbackResponse) hc
    simpa [chatCore, hm, hcid, hk] using this

theorem sessionInvariant_cwaCore (asr : AsrEngine) (cb : DialogEngine)
    (narrator : TtsEngine) (fcid fname tpath : String) (now : Nat)
    (cstore : ConvStore) (astore : AudioStore) (fs : Fs)
    (audio : Option (List Nat)) (cid : String) (hc : sessionInvariant cstore) :
    sessionInvariant (conversation_with_audioCore asr cb narrator fcid fname
      tpath now cstore astore fs audio cid).2.1 := by
  cases audio with
  | none => simpa [conversation_with_audioCore] using hc
  | some bytes =>
    cases hasr : asr (FileData.raw bytes) with
    | error e => simpa [conversation_with_audioCore, hasr] using hc
    | ok t =>
      have hupd : ∀ store1 cid2, sessionInvariant store1 →
          sessionInvariant (ainsert store1 cid2
            ((alookup store1 cid2).getD [] ++
              [userTurn t, assistantTurn
                ((cb ((alookup store1 cid2).getD []) t).getLast?.getD
                  fallbackResponse)])) :=
        fun store1 cid2 h1 => sessionInvariant_update store1 cid2 t _ h1
      by_cases hcid : cid = ""
      · have := hupd (ainsert cstore fcid []) fcid
          (sessionInvariant_ainsert _ _ _ hc rfl)
        cases hnarr : (narrator ((cb ((alookup (ainsert cstore fcid []) fcid).getD
            []) t).getLast?.getD fallbackResponse)).audio with
        | nil => simpa [conversation_with_audioCore, hasr, hcid, hnarr] using this
        | cons a0 rest =>
          simpa [conversation_with_audioCore, hasr, hcid, hnarr] using this
      cases hk : alookup cstore cid with
      | none =>
        have := hupd (ainsert cstore cid []) cid
          (sessionInvariant_ainsert _ _ _ hc rfl)
        cases hnarr : (narrator ((cb ((alookup (ainsert cstore cid []) cid).getD
            []) t).getLast?.getD fallbackResponse)).audio with
        | nil => simpa [conversation_with_audioCore, hasr, hcid, hk, hnarr] using this
        | cons a0 rest =>
          simpa [conversation_with_audioCore, hasr, hcid, hk, hnarr] using this
      | some l =>
        have := hupd cstore cid hc
        cases hnarr : (narrator ((cb l t).getLast?.getD fallbackResponse)).audio with
        | nil => simpa [conversation_with_audioCore, hasr, hcid, hk, hnarr] using this
        | cons a0 rest =>
          simpa [conversation_with_audioCore, hasr, hcid, hk, hnarr] using this

/-! Dialog-iteration lemmas for the turn-history claims. -/

theorem chatCore_snd_known (cb : DialogEngine) (fid : String)
    (store : ConvStore) (msg cid : String) (h : List Turn)
    (hmsg : msg ≠ "") (hcid : cid ≠ "") (hk : alookup store cid = some h) :
    (chatCore cb fid store msg cid).2
      = ainsert store cid
          (h ++ [userTurn msg, assistantTurn (engineReply cb h msg)]) := by
  simp [chatCore, hmsg, hcid, hk, engineReply]

theorem chatSeq_alookup (cb : DialogEngine) (cid : String)
    (msgs : List String) :
    ∀ store h, cid ≠ "" → alookup store cid = some h →
    (∀ m ∈ msgs, m ≠ "") →
    alookup (chatSeq cb cid store msgs) cid
      = some (dialogHistory cb h msgs) := by
  induction msgs with
  | nil =>
    intro store h _ hk _
    simpa [chatSeq, dialogHistory] using hk
  | cons m rest ih =>
    intro store h hcid hk hm
    rw [chatSeq, chatCore_snd_known cb "" store m cid h
      (hm m (List.mem_cons_self _ _)) hcid hk, dialogHistory]
    exact ih _ _ hcid (alookup_ainsert_self _ _ _)
      (fun x hx => hm x (List.mem_cons_of_mem _ hx))

theorem dialogHistory_length (cb : DialogEngine) (msgs : List String) :
    ∀ h, (dialogHistory cb h msgs).length = h.length + 2 * msgs.length := by
  induction msgs with
  | nil => intro h; simp [dialogHistory]
  | cons m rest ih =>
    intro h
    rw [dialogHistory, ih]
    simp [List.length_append]
    omega

theorem rolesOk_dialogHistory (cb : DialogEngine) (msgs : List String) :
    ∀ h, rolesOk h = true → rolesOk (dialogHistory cb h msgs) = true := by
  induction msgs with
  | nil => intro h hh; simpa [dialogHistory] using hh
  | cons m rest ih =>
    intro h hh
    rw [dialogHistory]
    exact ih _ (by rw [rolesOk_append_pair]; exact hh)

theorem userMessages_append_pair (u a : Turn) :
    ∀ h : List Turn, h.length % 2 = 0 →
    userMessages (h ++ [u, a]) = userMessages h ++ [u.content] := by
  intro h
  induction h using userMessages.induct with
  | case1 => intro _; simp [userMessages]
  | case2 t => intro hlen; simp at hlen
  | case3 t1 t2 rest ih =>
    intro hlen
    have hrest : rest.length % 2 = 0 := by
      simp [List.length_cons] at hlen
      omega
    simp only [List.cons_append, userMessages]
    simp only [List.cons.injEq, true_and]
    exact ih hrest

theorem userMessages_dialogHistory (cb : DialogEngine) (msgs : List String) :
    ∀ h, h.length % 2 = 0 →
    userMessages (dialogHistory cb h msgs) = userMessages h ++ msgs := by
  induction msgs with
  | nil => intro h _; simp [dialogHistory]
  | cons m rest ih =>
    intro h hlen
    rw [dialogHistory, ih _ (by simp [List.length_append]; omega),
      userMessages_append_pair _ _ h hlen]
    simp [userTurn]

/-! Claim theorems. -/

/-- C1 counterexample: the claim says a request carrying an unknown session
identifier gets a NEW identifier distinct from the supplied one.  At the
concrete input below the chat endpoint (and likewise the round-trip
endpoint) returns exactly the supplied identifier sess-1, not a distinct
fresh one, refuting the claim as stated. -/
theorem C1_counterexample :
    (chatCore (fun _ _ => ["ok"]) "fresh-id" [] "hi" "sess-1").1
      = ChatResult.ok "ok" "sess-1"
    ∧ (conversation_with_audioCore (fun _ => Except.ok "hi")
        (fun _ _ => ["ok"]) (fun _ => TTSOutput.mk 16000 [[0]]) "fresh-id" "f"
        "/tmp/chatbot_audio/t.wav" 0 [] [] [] (some [1]) "sess-1").1
      = CwaResult.ok "hi" "ok" "sess-1" "/api/audio/f.wav" := by
  constructor <;> rfl

/-- C1 amended: for a chat or round-trip request carrying a session
identifier unknown to the store, the operation registers THE SUPPLIED
identifier with an empty turn list and returns that same identifier; for an
empty identifier it mints the fresh identifier with an empty turn list; and
the chat call never fails for a nonempty message (session resolution has no
failure path). -/
theorem C1_amended (cb : DialogEngine) (asr : AsrEngine) (narrator : TtsEngine)
    (fid : String) (store cstore : ConvStore) (msg cid : String)
    (bytes : List Nat) (t fname tpath : String) (now : Nat)
    (hmsg : msg ≠ "") (hcid : cid ≠ "")
    (hunknown : alookup store cid = none) :
    (chatCore cb fid store msg cid).1
      = ChatResult.ok (engineReply cb [] msg) cid
    ∧ alookup (chatCore cb fid store msg cid).2 cid
      = some [userTurn msg, assistantTurn (engineReply cb [] msg)]
    ∧ (chatCore cb fid store msg "").1
      = ChatResult.ok (engineReply cb [] msg) fid
    ∧ alookup (chatCore cb fid store msg "").2 fid
      = some [userTurn msg, assistantTurn (engineReply cb [] msg)]
    ∧ (∀ store2 cid2, ∃ r c,
        (chatCore cb fid store2 msg cid2).1 = ChatResult.ok r c)
    ∧ (asr (FileData.raw bytes) = Except.ok t → alookup cstore cid = none →
        (narrator (engineReply cb [] t)).audio ≠ [] →
        (conversation_with_audioCore asr cb narrator fid fname tpath now
            cstore [] [] (some bytes) cid).1
          = CwaResult.ok t (engineReply cb [] t) cid
              ("/api/audio/" ++ (fname ++ ".wav"))
        ∧ alookup (conversation_with_audioCore asr cb narrator fid fname tpath
            now cstore [] [] (some bytes) cid).2.1 cid
          = some [userTurn t, assistantTurn (engineReply cb [] t)]) := by
  refine ⟨?_, ?_, ?_, ?_, ?_, ?_⟩
  · simp [chatCore, hmsg, hcid, hunknown, alookup_ainsert_self, engineReply]
  · simp [chatCore, hmsg, hcid, hunknown, alookup_ainsert_self, engineReply]
  · simp [chatCore, hmsg, alookup_ainsert_self, engineReply]
  · simp [chatCore, hmsg, alookup_ainsert_self, engineReply]
  · intro store2 cid2
    refine ⟨(cb ((alookup (if cid2 = "" then ainsert store2 fid []
        else if (alookup store2 cid2).isNone then ainsert store2 cid2 []
        else store2) (if cid2 = "" then fid else cid2)).getD []) msg).getLast?.getD
        fallbackResponse, if cid2 = "" then fid else cid2, ?_⟩
    simp [chatCore, hmsg]
  · intro hasr hcun hnarr
    cases hna : (narrator ((cb [] t).getLast?.getD fallbackResponse)).audio with
    | nil => exact absurd (by simpa [engineReply] using hna) hnarr
    | cons a0 rest =>
      constructor
      · simp [conversation_with_audioCore, hasr, hcid, hcun,
          alookup_ainsert_self, engineReply, hna]
      · simp [conversation_with_audioCore, hasr, hcid, hcun,
          alookup_ainsert_self, engineReply, hna]

/-- C1 witness: the amended theorem applied at a concrete input. -/
theorem C1_witness :
    (chatCore (fun _ _ => ["ok"]) "fresh" [] "hi" "s1").1
      = ChatResult.ok "ok" "s1"
    ∧ (conversation_with_audioCore (fun _ => Except.ok "hi")
        (fun _ _ => ["ok"]) (fun _ => TTSOutput.mk 16000 [[0]]) "fresh" "f"
        "tp" 0 [] [] [] (some [1]) "s1").1
      = CwaResult.ok "hi" "ok" "s1" "/api/audio/f.wav" := by
  have h := C1_amended (fun _ _ => ["ok"]) (fun _ => Except.ok "hi")
    (fun _ => TTSOutput.mk 16000 [[0]]) "fresh" [] [] "hi" "s1" [1] "hi" "f"
    "tp" 0 (by decide) (by decide) rfl
  exact ⟨h.1, (h.2.2.2.2.2 rfl rfl (by decide)).1⟩

/-- C2 counterexample: the claim says that when an artifact entry is present
but its backing bytes are absent, the stale entry is removed by the get and
a second get reports the never-issued NotFound.  At the concrete input the
entry is still in the store after the first get, and the second get reports
the bytes-absent NotFound message again. -/
theorem C2_counterexample :
    alookup (get_audioCore
        [("a.wav", AudioInfo.mk "/tmp/chatbot_audio/a.wav" 0 "audio/wav")] []
        "a.wav").2 "a.wav"
      = some (AudioInfo.mk "/tmp/chatbot_audio/a.wav" 0 "audio/wav")
    ∧ (get_audioCore (get_audioCore
        [("a.wav", AudioInfo.mk "/tmp/chatbot_audio/a.wav" 0 "audio/wav")] []
        "a.wav").2 [] "a.wav").1
      = AudioResult.notFound "Audio file not found on server" := by
  constructor <;> rfl

/-- C2 amended: a get returns NotFound both for a never-issued identifier
and for an identifier whose backing bytes are absent at read time, but the
stale entry is NOT removed (the handler never mutates the store), so a
second get of the same identifier returns NotFound for the bytes-absent
reason again. -/
theorem C2_amended (astore : AudioStore) (fs : Fs) (filename : String) :
    (alookup astore filename = none →
      get_audioCore astore fs filename
        = (AudioResult.notFound "Audio file not found", astore))
    ∧ (∀ info, alookup astore filename = some info →
        alookup fs info.path = none →
        get_audioCore astore fs filename
          = (AudioResult.notFound "Audio file not found on server", astore)
        ∧ (get_audioCore (get_audioCore astore fs filename).2 fs filename).1
          = AudioResult.notFound "Audio file not found on server") := by
  constructor
  · intro h
    simp [get_audioCore, h]
  · intro info h hp
    constructor
    · simp [get_audioCore, h, hp]
    · simp [get_audioCore, h, hp]

/-- C2 witness: the amended theorem applied at a concrete input. -/
theorem C2_witness :
    get_audioCore [("b.wav", AudioInfo.mk "/tmp/chatbot_audio/b.wav" 5
        "audio/wav")] [] "b.wav"
      = (AudioResult.notFound "Audio file not found on server",
          [("b.wav", AudioInfo.mk "/tmp/chatbot_audio/b.wav" 5 "audio/wav")])
    ∧ get_audioCore [] [] "nope.wav"
      = (AudioResult.notFound "Audio file not found", []) := by
  have h1 := (C2_amended [("b.wav", AudioInfo.mk "/tmp/chatbot_audio/b.wav" 5
    "audio/wav")] [] "b.wav").2
    (AudioInfo.mk "/tmp/chatbot_audio/b.wav" 5 "audio/wav") rfl rfl
  have h2 := (C2_amended [] [] "nope.wav").1 rfl
  exact ⟨h1.1, h2⟩

/-- C3: the claim says the transient audio file is deleted whether the
speech-recognition engine succeeds or raises.  In the source the unlink
(app.py line 215) sits after the engine call with no try/finally, so on an
engine failure the 500 is surfaced but the transient file remains; on
success it is deleted.  The theorem evaluates the handler at the failing
input (engine raising) and at a succeeding input. -/
theorem C3_code_bug :
    speech_to_textCore (fun _ => Except.error "recognition failed")
        "/tmp/chatbot_audio/t0.wav" (some [1, 2]) []
      = (SttResult.serverError "recognition failed",
          [("/tmp/chatbot_audio/t0.wav", FileData.raw [1, 2])])
    ∧ speech_to_textCore (fun _ => Except.ok "hello")
        "/tmp/chatbot_audio/t0.wav" (some [1, 2]) []
      = (SttResult.ok "hello", []) := by
  constructor <;> rfl

/-- C7: when the dialog engine yields no generated response, the chat
endpoint (and the round-trip endpoint) returns the literal canned fallback
string as the assistant response with a 200, appends it as the assistant
turn, and does not return an error. -/
theorem C7_fallback (cb : DialogEngine) (asr : AsrEngine)
    (narrator : TtsEngine) (fid fname tpath : String) (now : Nat)
    (store : ConvStore) (msg cid : String) (h : List Turn)
    (hmsg : msg ≠ "") (hcid : cid ≠ "") (hh : alookup store cid = some h)
    (hcb : cb h msg = []) :
    (chatCore cb fid store msg cid).1 = ChatResult.ok fallbackResponse cid
    ∧ alookup (chatCore cb fid store msg cid).2 cid
      = some (h ++ [userTurn msg, assistantTurn fallbackResponse])
    ∧ (∀ bytes t cstore hist, asr (FileData.raw bytes) = Except.ok t →
        alookup cstore cid = some hist → cb hist t = [] →
        (narrator fallbackResponse).audio ≠ [] →
        (conversation_with_audioCore asr cb narrator fid fname tpath now
            cstore [] [] (some bytes) cid).1
          = CwaResult.ok t fallbackResponse cid
              ("/api/audio/" ++ (fname ++ ".wav"))) := by
  refine ⟨?_, ?_, ?_⟩
  · simp [chatCore, hmsg, hcid, hh, hcb]
  · simp [chatCore, hmsg, hcid, hh, hcb, alookup_ainsert_self]
  · intro bytes t cstore hist hasr hk hcb2 hnarr
    cases hna : (narrator fallbackResponse).audio with
    | nil => exact absurd hna hnarr
    | cons a0 rest =>
      simp [conversation_with_audioCore, hasr, hcid, hk, hcb2, hna]

/-- C7 witness: the fallback theorem applied at a concrete input with an
engine returning no generated responses. -/
theorem C7_witness :
    (chatCore (fun _ _ => []) "fid" [("s", [])] "hi" "s").1
      = ChatResult.ok fallbackResponse "s"
    ∧ (conversation_with_audioCore (fun _ => Except.ok "hi") (fun _ _ => [])
        (fun _ => TTSOutput.mk 16000 [[0]]) "fid" "f" "tp" 0 [("s", [])] []
        [] (some [1]) "s").1
      = CwaResult.ok "hi" fallbackResponse "s" "/api/audio/f.wav" := by
  have h := C7_fallback (fun _ _ => []) (fun _ => Except.ok "hi")
    (fun _ => TTSOutput.mk 16000 [[0]]) "fid" "f" "tp" 0 [("s", [])] "hi" "s"
    [] (by decide) (by decide) rfl rfl
  exact ⟨h.1, h.2.2 [1] "hi" [("s", [])] [] rfl rfl rfl (by decide)⟩

/-- C8 counterexample: the claim says every endpoint other than the status
probe rejects with a 503-equivalent while the readiness flag is unset.  The
source leaves three endpoints undecorated (get audio, get conversation
history, delete conversation): with the flag unset they serve normal
responses. -/
theorem C8_counterexample :
    get_conversation_history false [("s", [])] "s" = HistoryResult.ok "s" []
    ∧ get_audio false
        [("a.wav", AudioInfo.mk "/tmp/chatbot_audio/a.wav" 0 "audio/wav")]
        [("/tmp/chatbot_audio/a.wav", FileData.raw [1])] "a.wav"
      = (AudioResult.file (FileData.raw [1]) "audio/wav" "a.wav",
          [("a.wav", AudioInfo.mk "/tmp/chatbot_audio/a.wav" 0 "audio/wav")])
    ∧ delete_conversation false [("s", [])] "s"
      = (DeleteResult.ok true "Conversation deleted", []) := by
  refine ⟨rfl, rfl, rfl⟩

/-- C8 amended: the five engine-invoking endpoints (chat, speech-to-text,
text-to-speech, conversation-with-audio, language-feedback) reject with the
not-ready 503 before any engine call or state mutation while the readiness
flag is unset (the result is independent of every engine and every store is
returned unchanged); the status probe and the three store-only endpoints
(get audio, get conversation history, delete conversation) ignore the
readiness flag and respond normally. -/
theorem C8_amended :
    (∀ (cb : DialogEngine) fid store msg cid,
      chat false cb fid store msg cid = (Gated.notReady, store))
    ∧ (∀ (asr : AsrEngine) tp audio fs,
        speech_to_text false asr tp audio fs = (Gated.notReady, fs))
    ∧ (∀ (narr : TtsEngine) fn now astore fs text,
        text_to_speech false narr fn now astore fs text
          = (Gated.notReady, astore, fs))
    ∧ (∀ (asr : AsrEngine) (cb : DialogEngine) (narr : TtsEngine) fcid fn tp
          now cs as fs audio cid,
        conversation_with_audio false asr cb narr fcid fn tp now cs as fs
            audio cid
          = (Gated.notReady, cs, as, fs))
    ∧ (∀ text, language_feedback false text = Gated.notReady)
    ∧ (∀ loaded astore fs fn,
        get_audio loaded astore fs fn = get_audioCore astore fs fn)
    ∧ (∀ loaded cstore cid,
        get_conversation_history loaded cstore cid
          = get_conversation_historyCore cstore cid)
    ∧ (∀ loaded cstore cid,
        delete_conversation loaded cstore cid
          = delete_conversationCore cstore cid)
    ∧ (∀ loaded, statusEndpoint loaded = StatusResult.mk "operational" loaded) := by
  refine ⟨?_, ?_, ?_, ?_, ?_, ?_, ?_, ?_, ?_⟩ <;> intros <;> rfl

/-- C9: the claim (and the spec) requires appends to be serialized per
session id so that each round-trip user+assistant pair stays adjacent.  The
source takes no lock: app.py lines 183-184 are two separate atomic
list appends with a blocking engine call before them, so the scheduler can
run the two appends of a second request between them.  The theorem
exhibits a valid interleaving of two concurrent chat requests on one
session whose resulting history is user1, user2, assistant1, assistant2:
request 1's pair is not adjacent. -/
theorem C9_code_bug :
    Interleaving (chatProgram 1) (chatProgram 2)
      [ChatAction.appendUser 1, ChatAction.appendUser 2,
        ChatAction.appendAssistant 1, ChatAction.appendAssistant 2]
    ∧ runSchedule (fun i => "q" ++ toString i) (fun i => "r" ++ toString i)
        [ChatAction.appendUser 1, ChatAction.appendUser 2,
          ChatAction.appendAssistant 1, ChatAction.appendAssistant 2] []
      = [userTurn "q1", userTurn "q2", assistantTurn "r1", assistantTurn "r2"]
    ∧ pairAdjacent
        (runSchedule (fun i => "q" ++ toString i) (fun i => "r" ++ toString i)
          [ChatAction.appendUser 1, ChatAction.appendUser 2,
            ChatAction.appendAssistant 1, ChatAction.appendAssistant 2] [])
        (userTurn "q1") (assistantTurn "r1") = false := by
  refine ⟨?_, by decide, by decide⟩
  exact Interleaving.consLeft (Interleaving.consRight
    (Interleaving.consLeft (Interleaving.consRight Interleaving.nil)))

/-- C4: issuing N successful dialog turns against one (initially unknown,
nonempty) session id and then reading the session returns exactly the
replayed history: 2N turns, in call order, alternating user then assistant,
with the user turns carrying the N messages in order. -/
theorem C4_history (cb : DialogEngine) (cid : String) (store : ConvStore)
    (msgs : List String) (hcid : cid ≠ "") (hnew : alookup store cid = none)
    (hmsgs : ∀ m ∈ msgs, m ≠ "") (hne : msgs ≠ []) :
    get_conversation_historyCore (chatSeq cb cid store msgs) cid
      = HistoryResult.ok cid (dialogHistory cb [] msgs)
    ∧ (dialogHistory cb [] msgs).length = 2 * msgs.length
    ∧ rolesOk (dialogHistory cb [] msgs) = true
    ∧ userMessages (dialogHistory cb [] msgs) = msgs := by
  refine ⟨?_, by simpa using dialogHistory_length cb msgs [],
    rolesOk_dialogHistory cb msgs [] rfl,
    by simpa using userMessages_dialogHistory cb msgs [] rfl⟩
  cases msgs with
  | nil => exact absurd rfl hne
  | cons m rest =>
    have hstep : alookup (chatCore cb "" store m cid).2 cid
        = some [userTurn m, assistantTurn (engineReply cb [] m)] := by
      simp [chatCore, hmsgs m (List.mem_cons_self _ _), hcid, hnew,
        alookup_ainsert_self, engineReply]
    have hs := chatSeq_alookup cb cid rest (chatCore cb "" store m cid).2
      [userTurn m, assistantTurn (engineReply cb [] m)] hcid hstep
      (fun x hx => hmsgs x (List.mem_cons_of_mem _ hx))
    rw [chatSeq]
    simp only [get_conversation_historyCore, hs, dialogHistory,
      List.nil_append]

/-- C4 witness: two turns against a fresh session id, read back. -/
theorem C4_witness :
    get_conversation_historyCore
        (chatSeq (fun _ _ => ["a"]) "s" [] ["one", "two"]) "s"
      = HistoryResult.ok "s"
          (dialogHistory (fun _ _ => ["a"]) [] ["one", "two"])
    ∧ (dialogHistory (fun _ _ => ["a"]) [] ["one", "two"]).length = 2 * 2
    ∧ rolesOk (dialogHistory (fun _ _ => ["a"]) [] ["one", "two"]) = true
    ∧ userMessages (dialogHistory (fun _ _ => ["a"]) [] ["one", "two"])
      = ["one", "two"] := by
  have h := C4_history (fun _ _ => ["a"]) "s" [] ["one", "two"] (by decide)
    rfl (by decide) (by decide)
  exact ⟨h.1, h.2.1, h.2.2.1, h.2.2.2⟩

/-- C10: sequential execution of any endpoint request preserves the session
store invariant: every stored turn list has even length and strictly
alternates user then assistant, because sessions are created empty and the
only mutation appends a user turn immediately followed by an assistant
turn. -/
theorem C10_invariant (st : AppState) (op : Op)
    (hinv : sessionInvariant st.cstore) :
    sessionInvariant (applyOp st op).cstore := by
  cases op with
  | chatOp loaded cb fid msg cid =>
    cases loaded with
    | false => simpa [applyOp, chat] using hinv
    | true =>
      simpa [applyOp, chat] using
        sessionInvariant_chatCore cb fid st.cstore msg cid hinv
  | sttOp loaded asr tp audio => simpa [applyOp] using hinv
  | ttsOp loaded narr fn now text => simpa [applyOp] using hinv
  | cwaOp loaded asr cb narr fcid fn tp now audio cid =>
    cases loaded with
    | false => simpa [applyOp, conversation_with_audio] using hinv
    | true =>
      simpa [applyOp, conversation_with_audio] using
        sessionInvariant_cwaCore asr cb narr fcid fn tp now st.cstore
          st.astore st.fs audio cid hinv
  | getAudioOp loaded fn => simpa [applyOp] using hinv
  | feedbackOp loaded text => simpa [applyOp] using hinv
  | historyOp loaded cid => simpa [applyOp] using hinv
  | deleteOp loaded cid =>
    simpa [applyOp, delete_conversation, delete_conversationCore] using
      sessionInvariant_aerase st.cstore cid hinv
  | statusOp loaded => simpa [applyOp] using hinv
  | cleanupOp now faults => simpa [applyOp] using hinv

/-- C10 witness: the invariant theorem applied to a concrete state and a
concrete chat request. -/
theorem C10_witness :
    sessionInvariant [("s", [userTurn "hi", assistantTurn "ok"])]
    ∧ sessionInvariant (applyOp
        (AppState.mk [("s", [userTurn "hi", assistantTurn "ok"])] [] [])
        (Op.chatOp true (fun _ _ => ["r"]) "f" "msg" "s")).cstore :=
  ⟨by decide, C10_invariant _ _ (by decide)⟩

/-- A freshly put artifact entry sits at the end of the store; a sweep over
the store removes it exactly when it has expired, and otherwise leaves its
metadata and bytes intact (given that no older entry shares its key or its
backing path). -/
theorem cleanupPass_fresh_entry (now ts : Nat) (astore : AudioStore) (fs : Fs)
    (fn p mime : String) (data : FileData)
    (hfresh : alookup astore fn = none)
    (hpath : ∀ e ∈ astore, e.2.path ≠ p) :
    (now - ts > audioRetentionSeconds →
      alookup (cleanupPass now [] (ainsert astore fn (AudioInfo.mk p ts mime))
        (ainsert fs p data)).1 fn = none)
    ∧ (¬ now - ts > audioRetentionSeconds →
      alookup (cleanupPass now [] (ainsert astore fn (AudioInfo.mk p ts mime))
          (ainsert fs p data)).1 fn = some (AudioInfo.mk p ts mime)
      ∧ alookup (cleanupPass now [] (ainsert astore fn (AudioInfo.mk p ts mime))
          (ainsert fs p data)).2 p = some data) := by
  have happ := ainsert_eq_append astore fn (AudioInfo.mk p ts mime) hfresh
  have hkeys := (alookup_eq_none_iff astore fn).mp hfresh
  rw [happ]
  unfold cleanupPass
  rw [List.foldl_append]
  set acc := astore.foldl (cleanupStep now [])
    (astore ++ [(fn, AudioInfo.mk p ts mime)], ainsert fs p data) with hacc
  have ha : alookup acc.1 fn = some (AudioInfo.mk p ts mime) := by
    rw [hacc, foldl_cleanup_fst_ne now [] astore _ fn hkeys]
    show alookup (astore ++ [(fn, AudioInfo.mk p ts mime)]) fn
      = some (AudioInfo.mk p ts mime)
    rw [← happ]
    exact alookup_ainsert_self _ _ _
  have hb : alookup acc.2 p = some data := by
    rw [hacc, foldl_cleanup_snd_ne now [] astore _ p hpath]
    exact alookup_ainsert_self _ _ _
  simp only [List.foldl_cons, List.foldl_nil]
  constructor
  · intro hexp
    show alookup ((if now - ts > audioRetentionSeconds then
        if (alookup acc.2 p).isSome then
          if p ∈ ([] : List String) then acc
          else (aerase acc.1 fn, aerase acc.2 p)
        else (aerase acc.1 fn, acc.2)
      else acc)).1 fn = none
    rw [if_pos hexp, if_pos (by rw [hb]; rfl),
      if_neg (List.not_mem_nil p)]
    exact alookup_aerase_self _ _
  · intro hnexp
    constructor
    · show alookup ((if now - ts > audioRetentionSeconds then
          if (alookup acc.2 p).isSome then
            if p ∈ ([] : List String) then acc
            else (aerase acc.1 fn, aerase acc.2 p)
          else (aerase acc.1 fn, acc.2)
        else acc)).1 fn = some (AudioInfo.mk p ts mime)
      rw [if_neg hnexp]
      exact ha
    · show alookup ((if now - ts > audioRetentionSeconds then
          if (alookup acc.2 p).isSome then
            if p ∈ ([] : List String) then acc
            else (aerase acc.1 fn, aerase acc.2 p)
          else (aerase acc.1 fn, acc.2)
        else acc)).2 p = some data
      rw [if_neg hnexp]
      exact hb

/-- C5: putting an artifact at time T, a get before any expiring sweep
returns exactly the stored bytes and sample rate (round trip is the
identity on payload and sample rate); a sweep at time now with
now - T > retention removes it, after which the get is NotFound; a sweep
before the threshold leaves the get returning the original bytes. -/
theorem C5_roundtrip (narrator : TtsEngine) (freshName : String)
    (T now now2 : Nat) (astore : AudioStore) (fs : Fs) (text : String)
    (a0 : List Int) (rest : List (List Int))
    (htext : text ≠ "")
    (haudio : (narrator text).audio = a0 :: rest)
    (hfresh : alookup astore (freshName ++ ".wav") = none)
    (hpath : ∀ e ∈ astore, e.2.path ≠ tempDirPath ++ (freshName ++ ".wav")) :
    (text_to_speechCore narrator freshName T astore fs text).1
      = TtsResult.ok ("/api/audio/" ++ (freshName ++ ".wav"))
    ∧ (get_audioCore
        (text_to_speechCore narrator freshName T astore fs text).2.1
        (text_to_speechCore narrator freshName T astore fs text).2.2
        (freshName ++ ".wav")).1
      = AudioResult.file (FileData.wavData (narrator text).sampling_rate a0)
          "audio/wav" (freshName ++ ".wav")
    ∧ (now - T > audioRetentionSeconds →
        (get_audioCore
          (cleanupPass now []
            (text_to_speechCore narrator freshName T astore fs text).2.1
            (text_to_speechCore narrator freshName T astore fs text).2.2).1
          (cleanupPass now []
            (text_to_speechCore narrator freshName T astore fs text).2.1
            (text_to_speechCore narrator freshName T astore fs text).2.2).2
          (freshName ++ ".wav")).1
        = AudioResult.notFound "Audio file not found")
    ∧ (now2 - T ≤ audioRetentionSeconds →
        (get_audioCore
          (cleanupPass now2 []
            (text_to_speechCore narrator freshName T astore fs text).2.1
            (text_to_speechCore narrator freshName T astore fs text).2.2).1
          (cleanupPass now2 []
            (text_to_speechCore narrator freshName T astore fs text).2.1
            (text_to_speechCore narrator freshName T astore fs text).2.2).2
          (freshName ++ ".wav")).1
        = AudioResult.file (FileData.wavData (narrator text).sampling_rate a0)
            "audio/wav" (freshName ++ ".wav")) := by
  have hput : text_to_speechCore narrator freshName T astore fs text
      = (TtsResult.ok ("/api/audio/" ++ (freshName ++ ".wav")),
          ainsert astore (freshName ++ ".wav")
            (AudioInfo.mk (tempDirPath ++ (freshName ++ ".wav")) T "audio/wav"),
          ainsert fs (tempDirPath ++ (freshName ++ ".wav"))
            (FileData.wavData (narrator text).sampling_rate a0)) := by
    simp [text_to_speechCore, htext, haudio]
  have hsweep := cleanupPass_fresh_entry now T astore fs (freshName ++ ".wav")
    (tempDirPath ++ (freshName ++ ".wav")) "audio/wav"
    (FileData.wavData (narrator text).sampling_rate a0) hfresh hpath
  have hsweep2 := cleanupPass_fresh_entry now2 T astore fs (freshName ++ ".wav")
    (tempDirPath ++ (freshName ++ ".wav")) "audio/wav"
    (FileData.wavData (narrator text).sampling_rate a0) hfresh hpath
  refine ⟨by rw [hput], ?_, ?_, ?_⟩
  · rw [hput]
    simp [get_audioCore, alookup_ainsert_self]
  · intro hexp
    rw [hput]
    have h1 := hsweep.1 hexp
    simp [get_audioCore, h1]
  · intro hle
    rw [hput]
    have h2 := hsweep2.2 (by omega)
    simp [get_audioCore, h2.1, h2.2]

/-- C5 witness: a concrete put, read, expiring sweep and pre-threshold
sweep. -/
theorem C5_witness :
    (get_audioCore
        (text_to_speechCore (fun _ => TTSOutput.mk 16000 [[1, 2, 3]]) "f" 0
          [] [] "hello").2.1
        (text_to_speechCore (fun _ => TTSOutput.mk 16000 [[1, 2, 3]]) "f" 0
          [] [] "hello").2.2
        "f.wav").1
      = AudioResult.file (FileData.wavData 16000 [1, 2, 3]) "audio/wav" "f.wav"
    ∧ (get_audioCore
        (cleanupPass 3601 []
          (text_to_speechCore (fun _ => TTSOutput.mk 16000 [[1, 2, 3]]) "f" 0
            [] [] "hello").2.1
          (text_to_speechCore (fun _ => TTSOutput.mk 16000 [[1, 2, 3]]) "f" 0
            [] [] "hello").2.2).1
        (cleanupPass 3601 []
          (text_to_speechCore (fun _ => TTSOutput.mk 16000 [[1, 2, 3]]) "f" 0
            [] [] "hello").2.1
          (text_to_speechCore (fun _ => TTSOutput.mk 16000 [[1, 2, 3]]) "f" 0
            [] [] "hello").2.2).2
        "f.wav").1
      = AudioResult.notFound "Audio file not found"
    ∧ (get_audioCore
        (cleanupPass 3600 []
          (text_to_speechCore (fun _ => TTSOutput.mk 16000 [[1, 2, 3]]) "f" 0
            [] [] "hello").2.1
          (text_to_speechCore (fun _ => TTSOutput.mk 16000 [[1, 2, 3]]) "f" 0
            [] [] "hello").2.2).1
        (cleanupPass 3600 []
          (text_to_speechCore (fun _ => TTSOutput.mk 16000 [[1, 2, 3]]) "f" 0
            [] [] "hello").2.1
          (text_to_speechCore (fun _ => TTSOutput.mk 16000 [[1, 2, 3]]) "f" 0
            [] [] "hello").2.2).2
        "f.wav").1
      = AudioResult.file (FileData.wavData 16000 [1, 2, 3]) "audio/wav" "f.wav" := by
  have h := C5_roundtrip (fun _ => TTSOutput.mk 16000 [[1, 2, 3]]) "f" 0 3601
    3600 [] [] "hello" [1, 2, 3] [] (by decide) rfl rfl (by simp)
  exact ⟨h.2.1, h.2.2.1 (by decide), h.2.2.2 (by decide)⟩

/-- C6 counterexample: the claim says every entry whose age strictly
exceeds the retention window is removed, and that the sweep reports the
number of entries removed.  At the concrete input, entry a is expired but
its unlink fails, and it is NOT removed (neither metadata nor bytes);
moreover two sweeps that remove different numbers of entries (zero and one)
produce identical results, so no caller can recover a removal count from a
sweep: the pass reports nothing. -/
theorem C6_counterexample :
    cleanupPass 4000 ["pa"]
        [("a", AudioInfo.mk "pa" 0 "audio/wav"),
          ("b", AudioInfo.mk "pb" 0 "audio/wav")]
        [("pa", FileData.raw [1]), ("pb", FileData.raw [2])]
      = ([("a", AudioInfo.mk "pa" 0 "audio/wav")], [("pa", FileData.raw [1])])
    ∧ cleanupPass 4000 [] [] [] = ([], [])
    ∧ cleanupPass 4000 []
        [("c", AudioInfo.mk "pc" 0 "audio/wav")] [("pc", FileData.raw [3])]
      = ([], []) := by
  refine ⟨by decide, by decide, by decide⟩

/-- C6 amended: a sweep removes every expired entry whose backing-bytes
removal does not fail, deleting metadata and bytes together; a failure
while removing one entry's bytes leaves that entry in place (metadata and
bytes) and does not abort the sweep — every other expired entry is still
processed in that same sweep; the sweep returns no removal count. -/
theorem C6_amended (now : Nat) (faults : List String) (astore : AudioStore)
    (fs : Fs) (key : String) (info : AudioInfo)
    (hnodup : (astore.map Prod.fst).Nodup)
    (hmem : alookup astore key = some info)
    (hpathInj : ∀ e ∈ astore, e.2.path = info.path → e.1 = key)
    (hexp : now - info.timestamp > audioRetentionSeconds) :
    (info.path ∉ faults →
      alookup (cleanupPass now faults astore fs).1 key = none
      ∧ alookup (cleanupPass now faults astore fs).2 info.path = none)
    ∧ (info.path ∈ faults → (alookup fs info.path).isSome = true →
      alookup (cleanupPass now faults astore fs).1 key = some info
      ∧ alookup (cleanupPass now faults astore fs).2 info.path
          = alookup fs info.path) := by
  obtain ⟨l1, l2, hsplit, hl1⟩ := alookup_split astore key info hmem
  subst hsplit
  have hl2 : ∀ e ∈ l2, e.1 ≠ key := by
    have h1 : (((key, info) :: l2).map Prod.fst).Nodup := by
      rw [List.map_append] at hnodup
      exact hnodup.of_append_right
    rw [List.map_cons] at h1
    have h2 := (List.nodup_cons.mp h1).1
    intro e he heq
    have hmm : e.1 ∈ l2.map Prod.fst := List.mem_map_of_mem Prod.fst he
    rw [heq] at hmm
    exact h2 hmm
  have hl1path : ∀ e ∈ l1, e.2.path ≠ info.path := by
    intro e he hp
    exact hl1 e he (hpathInj e (List.mem_append_left _ he) hp)
  have hl2path : ∀ e ∈ l2, e.2.path ≠ info.path := by
    intro e he hp
    exact hl2 e he (hpathInj e
      (List.mem_append_right _ (List.mem_cons_of_mem _ he)) hp)
  set acc1 := l1.foldl (cleanupStep now faults)
    (l1 ++ (key, info) :: l2, fs) with hacc1
  have hP : cleanupPass now faults (l1 ++ (key, info) :: l2) fs
      = l2.foldl (cleanupStep now faults)
          (cleanupStep now faults acc1 (key, info)) := by
    unfold cleanupPass
    rw [List.foldl_append, List.foldl_cons, hacc1]
  have ha1 : alookup acc1.1 key = some info := by
    rw [hacc1, foldl_cleanup_fst_ne now faults l1 _ key hl1]
    exact hmem
  have hb1 : alookup acc1.2 info.path = alookup fs info.path := by
    rw [hacc1, foldl_cleanup_snd_ne now faults l1 _ info.path hl1path]
  rw [hP]
  constructor
  · intro hnf
    have hfst : alookup (cleanupStep now faults acc1 (key, info)).1 key
        = none := by
      show alookup ((if now - info.timestamp > audioRetentionSeconds then
          if (alookup acc1.2 info.path).isSome then
            if info.path ∈ faults then acc1
            else (aerase acc1.1 key, aerase acc1.2 info.path)
          else (aerase acc1.1 key, acc1.2)
        else acc1)).1 key = none
      rw [if_pos hexp]
      by_cases hs : (alookup acc1.2 info.path).isSome = true
      · rw [if_pos hs, if_neg hnf]
        exact alookup_aerase_self _ _
      · rw [if_neg hs]
        exact alookup_aerase_self _ _
    have hsnd : alookup (cleanupStep now faults acc1 (key, info)).2 info.path
        = none := by
      show alookup ((if now - info.timestamp > audioRetentionSeconds then
          if (alookup acc1.2 info.path).isSome then
            if info.path ∈ faults then acc1
            else (aerase acc1.1 key, aerase acc1.2 info.path)
          else (aerase acc1.1 key, acc1.2)
        else acc1)).2 info.path = none
      rw [if_pos hexp]
      by_cases hs : (alookup acc1.2 info.path).isSome = true
      · rw [if_pos hs, if_neg hnf]
        exact alookup_aerase_self _ _
      · rw [if_neg hs]
        exact Option.not_isSome_iff_eq_none.mp (by simpa using hs)
    exact ⟨foldl_cleanup_fst_none now faults l2 _ key hfst,
      foldl_cleanup_snd_none now faults l2 _ info.path hsnd⟩
  · intro hf hsome
    have hs : (alookup acc1.2 info.path).isSome = true := by
      rw [hb1]
      exact hsome
    have hstep : cleanupStep now faults acc1 (key, info) = acc1 := by
      show (if now - info.timestamp > audioRetentionSeconds then
          if (alookup acc1.2 info.path).isSome then
            if info.path ∈ faults then acc1
            else (aerase acc1.1 key, aerase acc1.2 info.path)
          else (aerase acc1.1 key, acc1.2)
        else acc1) = acc1
      rw [if_pos hexp, if_pos hs, if_pos hf]
    rw [hstep]
    constructor
    · rw [foldl_cleanup_fst_ne now faults l2 _ key hl2]
      exact ha1
    · rw [foldl_cleanup_snd_ne now faults l2 _ info.path hl2path]
      exact hb1

/-- C6 witness: the amended sweep theorem applied to a concrete store with
one faulted expired entry and one removable expired entry. -/
theorem C6_witness :
    alookup (cleanupPass 4000 ["pa"]
        [("a", AudioInfo.mk "pa" 0 "audio/wav"),
          ("b", AudioInfo.mk "pb" 0 "audio/wav")]
        [("pa", FileData.raw [1]), ("pb", FileData.raw [2])]).1 "b" = none
    ∧ alookup (cleanupPass 4000 ["pa"]
        [("a", AudioInfo.mk "pa" 0 "audio/wav"),
          ("b", AudioInfo.mk "pb" 0 "audio/wav")]
        [("pa", FileData.raw [1]), ("pb", FileData.raw [2])]).2 "pb" = none
    ∧ alookup (cleanupPass 4000 ["pa"]
        [("a", AudioInfo.mk "pa" 0 "audio/wav"),
          ("b", AudioInfo.mk "pb" 0 "audio/wav")]
        [("pa", FileData.raw [1]), ("pb", FileData.raw [2])]).1 "a"
      = some (AudioInfo.mk "pa" 0 "audio/wav") := by
  have hb := (C6_amended 4000 ["pa"]
    [("a", AudioInfo.mk "pa" 0 "audio/wav"),
      ("b", AudioInfo.mk "pb" 0 "audio/wav")]
    [("pa", FileData.raw [1]), ("pb", FileData.raw [2])] "b"
    (AudioInfo.mk "pb" 0 "audio/wav") (by decide) (by decide) (by decide)
    (by decide)).1 (by decide)
  have ha := (C6_amended 4000 ["pa"]
    [("a", AudioInfo.mk "pa" 0 "audio/wav"),
      ("b", AudioInfo.mk "pb" 0 "audio/wav")]
    [("pa", FileData.raw [1]), ("pb", FileData.raw [2])] "a"
    (AudioInfo.mk "pa" 0 "audio/wav") (by decide) (by decide) (by decide)
    (by decide)).2 (by decide) (by decide)
  exact ⟨hb.1, hb.2, ha.1⟩

end AIChatbot
